import Mathlib

set_option maxRecDepth 100000

/-!
Verification of the lgtm cryptography module (`src/cryptography/lgtm_crypto.cpp`)
against its natural-language specification.

The C++ file drives the external Crypto++ library (GCM<AES> authenticated
encryption, SHA-256 / SHA-512 digests).  The development below is a shallow
embedding: file contents are lists of bytes, the file system is a partial map
from names to contents, and each lgtm function becomes a Lean function
returning an explicit `Outcome` that distinguishes normal completion,
`exit(1)`, and an uncaught C++ exception escaping to the caller.

The Crypto++ primitives themselves are external collaborators, not code of
this repository.  They are modelled by concrete executable functions
(`keystream`, `gcmTag`, `sha256Digest`, `sha512Digest`) that reproduce the
interface properties the lgtm code relies on: determinism, the CTR/XOR
structure of GCM encryption (ciphertext length equals plaintext length,
decryption is the same XOR), a 12-byte truncated tag that depends on key,
IV, associated data and ciphertext, and fixed 32/64-byte digest outputs.
No theorem below depends on any further property of these stand-ins.
-/

/-- File bytes: values in `[0, 256)` in the intended interpretation. -/
abbrev Bytes := List Nat

/-- A file system: maps a file name to its content; `none` means the file
cannot be opened (missing). -/
abbrev FS := String → Option Bytes

/-- Result of running one lgtm operation: normal completion with a value,
`exit(code)` (the C++ calls `exit(1)` on fatal paths), or an uncaught C++
exception propagating out of the function to its caller. -/
inductive Outcome (α : Type) where
  | ok : α → Outcome α
  | exited : Nat → Outcome α
  | threw : Outcome α
deriving DecidableEq

/-- `true` exactly on normal completion. -/
def Outcome.isOk {α : Type} : Outcome α → Bool
  | Outcome.ok _ => true
  | Outcome.exited _ => false
  | Outcome.threw => false

/-- `static const int MAC_SIZE = 12;` (lgtm_crypto.cpp line 29). -/
def MAC_SIZE : Nat := 12

/-- `AES::BLOCKSIZE` in bytes: the IV length the lgtm code always passes to
`SetKeyWithIV` (lines 106 and 190). -/
def AES_BLOCKSIZE : Nat := 16

/-- `SHA256::DIGESTSIZE` in bytes. -/
def SHA256_DIGESTSIZE : Nat := 32

/-- `SHA512::DIGESTSIZE` in bytes. -/
def SHA512_DIGESTSIZE : Nat := 64

/-- One absorption step of the stand-in primitive state. -/
def mixByte (acc b : Nat) : Nat := (acc * 131 + b + 11) % 65521

/-- Absorb a byte string into a state, starting from `seed`. -/
def absorbBytes (seed : Nat) (l : Bytes) : Nat := l.foldl mixByte seed

/-- Deterministic output byte `i` generated from an absorbed state. -/
def prfByte (seed i : Nat) : Nat := ((seed + 1) * (2 * i + 1) * 7919 + i * i) % 256

/-- Model of the GCM<AES> CTR keystream for a given key and IV: `n` bytes,
deterministic in `(key, iv)`. -/
def keystream (key iv : Bytes) (n : Nat) : Bytes :=
  (List.range n).map (prfByte (absorbBytes 5 (key ++ iv)))

/-- Model of GCM<AES> encryption of the confidential channel: CTR mode, so
ciphertext = plaintext XOR keystream, length preserved. -/
def gcmEncryptBytes (key iv pt : Bytes) : Bytes :=
  List.zipWith Nat.xor pt (keystream key iv pt.length)

/-- Model of GCM<AES> decryption of the confidential channel: the same XOR. -/
def gcmDecryptBytes (key iv ct : Bytes) : Bytes :=
  List.zipWith Nat.xor ct (keystream key iv ct.length)

/-- Model of the GCM authentication tag truncated to `MAC_SIZE` bytes: a
deterministic function of key, IV, associated data and ciphertext.  The
out-of-byte-range separator `257` and the trailing lengths play the role of
GCM's length block, keeping the AAD/ciphertext boundary unambiguous. -/
def gcmTag (key iv aad ct : Bytes) : Bytes :=
  (List.range MAC_SIZE).map
    (prfByte (absorbBytes 7 (key ++ iv ++ aad ++ [257] ++ ct ++ [aad.length, ct.length])))

/-- Model of the external SHA-256 digest: fixed 32-byte output, deterministic. -/
def sha256Digest (m : Bytes) : Bytes :=
  (List.range SHA256_DIGESTSIZE).map (prfByte (absorbBytes 13 (m ++ [m.length])))

/-- Model of the external SHA-512 digest: fixed 64-byte output, deterministic. -/
def sha512Digest (m : Bytes) : Bytes :=
  (List.range SHA512_DIGESTSIZE).map (prfByte (absorbBytes 17 (m ++ [m.length])))

/-- `generateSymmetricKeyFromSharedSecret` (lines 70-76): throws
`runtime_error` when the shared secret is empty (uncaught, so it escapes to
the caller), otherwise the key is one SHA-256 digest pass over the raw
shared-secret bytes. -/
def generateSymmetricKeyFromSharedSecret (sharedSecret : Bytes) : Outcome Bytes :=
  if sharedSecret.length = 0 then Outcome.threw
  else Outcome.ok (sha256Digest sharedSecret)

/-- `encryptFile` (lines 103-160).  The AAD file is read first: if it opens,
its bytes are fed to the AAD channel; otherwise the code prints a warning and
continues with no AAD (the returned Bool records that warning).  Then the
primary input file: if it cannot be opened the code calls `exit(1)`; since
the AAD handling has no failure path, checking the primary input first is
behaviorally identical.  The `AuthenticatedEncryptionFilter` writes the
ciphertext followed by the truncated `MAC_SIZE`-byte tag to the output file;
the returned bytes are that output file's content.  `SetKeyWithIV` reads
exactly `AES::BLOCKSIZE` bytes from the caller's raw `ivBytes` pointer. -/
def encryptFile (fs : FS) (inputFileName authInputFileName : String)
    (key ivBytes : Bytes) : Outcome (Bytes × Bool) :=
  match fs inputFileName with
  | none => Outcome.exited 1
  | some inputData =>
      let iv := ivBytes.take AES_BLOCKSIZE
      let aad := (fs authInputFileName).getD []
      let ct := gcmEncryptBytes key iv inputData
      Outcome.ok (ct ++ gcmTag key iv aad ct, (fs authInputFileName).isNone)

/-- The split `decryptFile` performs on its input file (lines 203-222):
the first `fileLength - MAC_SIZE` bytes are the ciphertext, the trailing
`MAC_SIZE` bytes are the MAC. -/
def splitCipherMac (fileData : Bytes) : Bytes × Bytes :=
  (fileData.take (fileData.length - MAC_SIZE), fileData.drop (fileData.length - MAC_SIZE))

/-- `decryptFile` (lines 187-288).  Missing primary input: `exit(1)`.  The
length guard is the source's `if (encryptedDataLength < 1) exit(1);` where
`encryptedDataLength` is the C++ `int` `fileLength - MAC_SIZE` (computed here
in `Int` to keep the literal comparison).  The MAC is fed first
(`MAC_AT_BEGIN`), then the AAD, then the ciphertext; verification recomputes
the tag over the fed AAD and ciphertext and compares it with the MAC bytes,
and on mismatch `THROW_EXCEPTION` raises an exception that `decryptFile`
does not catch, so nothing is written and the exception escapes (`threw`).

The AAD read is the source's bug at lines 242-243: after opening
`authInputStream` the code reads from the already-closed `inputStream`, so
the freshly allocated `authInputData` buffer keeps its indeterminate
contents; only its length (taken from the real AAD file) is used.  The
`junk` parameter models those indeterminate buffer bytes: the fed AAD is
`junk length`, never the AAD file's content. -/
def decryptFile (junk : Nat → Bytes) (fs : FS)
    (inputFileName authInputFileName : String)
    (key ivBytes : Bytes) : Outcome (Bytes × Bool) :=
  match fs inputFileName with
  | none => Outcome.exited 1
  | some fileData =>
      if ((fileData.length : Int) - (MAC_SIZE : Int)) < 1 then Outcome.exited 1
      else
        let iv := ivBytes.take AES_BLOCKSIZE
        let encryptedData := (splitCipherMac fileData).1
        let macData := (splitCipherMac fileData).2
        let aadFed := match fs authInputFileName with
          | some authContent => junk authContent.length
          | none => []
        let warned := (fs authInputFileName).isNone
        if gcmTag key iv aadFed encryptedData = macData then
          Outcome.ok (gcmDecryptBytes key iv encryptedData, warned)
        else Outcome.threw

/-- `createHashFromFile` (lines 293-305): SHA-512 of the input file's bytes,
written to the output file (returned here); a `FileSource` open failure is a
Crypto++ exception, caught, and the function calls `exit(1)`. -/
def createHashFromFile (fs : FS) (inputFileName : String) : Outcome Bytes :=
  match fs inputFileName with
  | none => Outcome.exited 1
  | some content => Outcome.ok (sha512Digest content)

/-- `verifyHashFromFile` (lines 312-331).  The body builds a `FileSource`
over `hashInputFileName` only — `inputFileName` is never read.  The
`HashVerificationFilter` with `HASH_AT_END` treats the last
`SHA512::DIGESTSIZE` bytes of that single stream as the claimed digest and
the preceding bytes as the data; on success the function returns `true`; on
mismatch (or an input shorter than a digest) `THROW_EXCEPTION` raises, the
`catch` block runs and calls `exit(1)` — the `return false` after `exit(1)`
is unreachable. -/
def verifyHashFromFile (fs : FS) (inputFileName hashInputFileName : String) :
    Outcome Bool :=
  match fs hashInputFileName with
  | none => Outcome.exited 1
  | some content =>
      if SHA512_DIGESTSIZE ≤ content.length ∧
          sha512Digest (content.take (content.length - SHA512_DIGESTSIZE))
            = content.drop (content.length - SHA512_DIGESTSIZE)
      then Outcome.ok true
      else Outcome.exited 1

/-- Concatenation of the contents of a list of files, `none` if any is
missing. -/
def concatFiles (fs : FS) (names : List String) : Option Bytes :=
  match names with
  | [] => some []
  | n :: rest =>
      match fs n, concatFiles fs rest with
      | some c, some r => some (c ++ r)
      | _, _ => none

/-- `createHashFromFiles` (lines 338-371): concatenates the input files in
order and digests the concatenation.  The per-file reads happen outside the
`try` block, so a missing input file raises an exception that escapes the
function (`threw`). -/
def createHashFromFiles (fs : FS) (inputFileNames : List String) : Outcome Bytes :=
  match concatFiles fs inputFileNames with
  | none => Outcome.threw
  | some inputConcat => Outcome.ok (sha512Digest inputConcat)

/-- `verifyHashFromFiles` (lines 378-434): concatenates the input files in
order, appends the expected-digest file's bytes, and runs the same
`HASH_AT_END` verification over the whole buffer (so with a 64-byte digest
file this compares SHA-512 of the concatenation against the stored digest).
The reads happen outside the `try` block (missing file: exception escapes,
`threw`); a verification mismatch is caught and the function calls
`exit(1)`, its `return false` being unreachable. -/
def verifyHashFromFiles (fs : FS) (inputFileNames : List String)
    (hashInputFileName : String) : Outcome Bool :=
  match concatFiles fs inputFileNames, fs hashInputFileName with
  | some inputConcat, some hashContent =>
      let inputBytes := inputConcat ++ hashContent
      if SHA512_DIGESTSIZE ≤ inputBytes.length ∧
          sha512Digest (inputBytes.take (inputBytes.length - SHA512_DIGESTSIZE))
            = inputBytes.drop (inputBytes.length - SHA512_DIGESTSIZE)
      then Outcome.ok true
      else Outcome.exited 1
  | _, _ => Outcome.threw

/-- Build a file system from an association list of names and contents. -/
def fsOf (entries : List (String × Bytes)) : FS :=
  fun n => (entries.find? (fun e => e.1 == n)).map Prod.snd

/-- The output-file bytes of a successful encryption (helper for concrete
instances). -/
def encOutput (fs : FS) (inF aadF : String) (k iv : Bytes) : Bytes :=
  match encryptFile fs inF aadF k iv with
  | Outcome.ok (o, _) => o
  | _ => []

/-- Indeterminate-buffer model used in concrete instances: all-zero bytes,
one admissible state of a freshly allocated C++ buffer. -/
def junk0 : Nat → Bytes := fun n => List.replicate n 0

/-- Concrete 32-byte key used by instances. -/
def keyW : Bytes := List.range 32

/-- Concrete 16-byte nonce used by instances. -/
def ivW : Bytes := List.range 16

def fileP : String := "p"
def fileD : String := "d"
def fileC : String := "c"
def fileA : String := "a"
def fileH : String := "h"
def fileX : String := "x"

/-! Concrete instances used by the claim theorems and witnesses. -/

def c1fsEnc : FS := fsOf [(fileP, [7]), (fileD, [1])]
def c1out : Bytes := encOutput c1fsEnc fileP fileD keyW ivW
def c1fsDec : FS := fsOf [(fileC, c1out), (fileD, [1])]

def c2fsEnc : FS := fsOf [(fileP, [7]), (fileD, [0])]
def c2out : Bytes := encOutput c2fsEnc fileP fileD keyW ivW
def c2fsDecTampered : FS := fsOf [(fileC, c2out), (fileD, [1])]
def c2fsDecOriginal : FS := fsOf [(fileC, c2out), (fileD, [0])]

def c3fsEnc : FS := fsOf [(fileP, [])]
def c3out : Bytes := encOutput c3fsEnc fileP fileD keyW ivW
def c3fsDec : FS := fsOf [(fileC, c3out)]

def c4fsW : FS := fsOf [(fileP, [7])]

def c5hash : Bytes := List.replicate 64 0
def c5fs : FS := fsOf [(fileA, [1]), (fileH, c5hash)]

def c6fs : FS := fsOf [(fileA, [1]), (fileH, sha512Digest [1])]

def c7fsEnc : FS := fsOf [(fileP, [1, 2, 3])]
def c7ctW : Bytes := gcmEncryptBytes keyW (ivW.take AES_BLOCKSIZE) [1, 2, 3]
def c7fsDec : FS :=
  fsOf [(fileC, c7ctW ++ gcmTag keyW (ivW.take AES_BLOCKSIZE) [] c7ctW)]

def nonce20 : Bytes := List.range 20
def c8fsEnc : FS := fsOf [(fileP, [7])]
def c8out : Bytes := encOutput c8fsEnc fileP fileX keyW nonce20
def c8fsDec : FS := fsOf [(fileC, c8out)]

def c10fsA : FS := fsOf [(fileA, [1]), (fileH, sha512Digest [1])]
def c10fsB : FS := fsOf [(fileA, [2]), (fileH, sha512Digest [1])]

/-! Helper lemmas about the primitive models. -/

theorem length_keystream (k iv : Bytes) (n : Nat) : (keystream k iv n).length = n := by
  simp [keystream]

theorem length_gcmEncryptBytes (k iv p : Bytes) :
    (gcmEncryptBytes k iv p).length = p.length := by
  simp [gcmEncryptBytes, length_keystream]

theorem length_gcmTag (k iv aad ct : Bytes) : (gcmTag k iv aad ct).length = MAC_SIZE := by
  simp [gcmTag]

theorem zipWith_xor_cancel (p ks : Bytes) (h : p.length ≤ ks.length) :
    List.zipWith Nat.xor (List.zipWith Nat.xor p ks) ks = p := by
  induction p generalizing ks with
  | nil => simp
  | cons a as ih =>
    cases ks with
    | nil => simp at h
    | cons b bs =>
      simp only [List.zipWith_cons_cons]
      rw [show Nat.xor (Nat.xor a b) b = a from Nat.xor_cancel_right b a]
      exact congrArg (a :: ·) (ih bs (by simpa using h))

theorem gcm_roundtrip (k iv p : Bytes) :
    gcmDecryptBytes k iv (gcmEncryptBytes k iv p) = p := by
  unfold gcmDecryptBytes
  rw [length_gcmEncryptBytes]
  exact zipWith_xor_cancel p _ (le_of_eq (length_keystream k iv p.length).symm)

theorem splitCipherMac_append (ct tag : Bytes) (h : tag.length = MAC_SIZE) :
    splitCipherMac (ct ++ tag) = (ct, tag) := by
  unfold splitCipherMac
  rw [List.length_append, h, Nat.add_sub_cancel, List.take_left, List.drop_left]

/-! Claim theorems. -/

/-- C1 (code bug): the round-trip claim
`decrypt(encrypt(P, D, K, N), D, K, N) = P` fails for non-empty associated
data.  With plaintext `[7]`, AAD file content `[1]`, the concrete key and
nonce, and zeroed indeterminate buffer bytes, encryption succeeds, but
decrypting its output with the very same AAD file raises an authentication
failure instead of returning the plaintext: `decryptFile` reads the AAD
bytes from the already-closed primary stream, so the real AAD never reaches
verification. -/
theorem c1_roundtrip_fails_with_aad :
    encryptFile c1fsEnc fileP fileD keyW ivW = Outcome.ok (c1out, false)
    ∧ decryptFile junk0 c1fsDec fileC fileD keyW ivW = Outcome.threw
    ∧ decryptFile junk0 c1fsDec fileC fileD keyW ivW ≠ Outcome.ok ([7], false) := by
  decide

/-- C2 (code bug): flipping a bit of the associated data before decryption is
not detected.  The AAD file holds `[0]` at encryption time and is tampered to
`[1]` before decryption; with zeroed indeterminate buffer bytes the
decryption succeeds and releases the plaintext `[7]`, and its outcome is
identical to the untampered run — the AAD file's content never influences
verification. -/
theorem c2_aad_tamper_releases_plaintext :
    decryptFile junk0 c2fsDecTampered fileC fileD keyW ivW = Outcome.ok ([7], false)
    ∧ decryptFile junk0 c2fsDecOriginal fileC fileD keyW ivW
        = decryptFile junk0 c2fsDecTampered fileC fileD keyW ivW := by
  decide

/-- C3 (code bug): the encryption of the empty plaintext is a 12-byte file
(empty ciphertext plus tag), but decrypting it calls `exit(1)`: the guard
`encryptedDataLength < 1` also rejects the non-negative remainder `0`, so an
input of exactly tag size is not accepted, contradicting the claim that only
a negative remainder fails. -/
theorem c3_tag_only_input_rejected :
    c3out.length = MAC_SIZE
    ∧ encryptFile c3fsEnc fileP fileD keyW ivW = Outcome.ok (c3out, true)
    ∧ decryptFile junk0 c3fsDec fileC fileD keyW ivW = Outcome.exited 1 := by
  decide

/-- C4 (confirmed): whenever the primary input file holds plaintext `p`,
encryption completes with output laid out as the ciphertext (of the same
length as `p`) followed by the fixed 12-byte tag, and the decryption side's
split of that output recovers exactly the ciphertext part and the trailing
12-byte tag, so the two layouts agree. -/
theorem c4_output_layout (fs : FS) (inF aadF : String) (k iv p : Bytes)
    (hp : fs inF = some p) :
    encryptFile fs inF aadF k iv
      = Outcome.ok
          (gcmEncryptBytes k (iv.take AES_BLOCKSIZE) p
             ++ gcmTag k (iv.take AES_BLOCKSIZE) ((fs aadF).getD [])
                  (gcmEncryptBytes k (iv.take AES_BLOCKSIZE) p),
           (fs aadF).isNone)
    ∧ (gcmEncryptBytes k (iv.take AES_BLOCKSIZE) p).length = p.length
    ∧ (gcmTag k (iv.take AES_BLOCKSIZE) ((fs aadF).getD [])
         (gcmEncryptBytes k (iv.take AES_BLOCKSIZE) p)).length = MAC_SIZE
    ∧ splitCipherMac
        (gcmEncryptBytes k (iv.take AES_BLOCKSIZE) p
           ++ gcmTag k (iv.take AES_BLOCKSIZE) ((fs aadF).getD [])
                (gcmEncryptBytes k (iv.take AES_BLOCKSIZE) p))
      = (gcmEncryptBytes k (iv.take AES_BLOCKSIZE) p,
         gcmTag k (iv.take AES_BLOCKSIZE) ((fs aadF).getD [])
           (gcmEncryptBytes k (iv.take AES_BLOCKSIZE) p)) := by
  refine ⟨?_, length_gcmEncryptBytes k (iv.take AES_BLOCKSIZE) p,
    length_gcmTag k (iv.take AES_BLOCKSIZE) ((fs aadF).getD [])
      (gcmEncryptBytes k (iv.take AES_BLOCKSIZE) p),
    splitCipherMac_append _ _ (length_gcmTag k (iv.take AES_BLOCKSIZE)
      ((fs aadF).getD []) (gcmEncryptBytes k (iv.take AES_BLOCKSIZE) p))⟩
  unfold encryptFile
  rw [hp]

/-- Witness for C4 at a concrete input: plaintext file `[7]`, no AAD file,
concrete key and nonce. -/
theorem c4_output_layout_witness :
    c4fsW fileP = some [7]
    ∧ (encryptFile c4fsW fileP fileD keyW ivW
        = Outcome.ok
            (gcmEncryptBytes keyW (ivW.take AES_BLOCKSIZE) [7]
               ++ gcmTag keyW (ivW.take AES_BLOCKSIZE) ((c4fsW fileD).getD [])
                    (gcmEncryptBytes keyW (ivW.take AES_BLOCKSIZE) [7]),
             (c4fsW fileD).isNone)
      ∧ (gcmEncryptBytes keyW (ivW.take AES_BLOCKSIZE) [7]).length = ([7] : Bytes).length
      ∧ (gcmTag keyW (ivW.take AES_BLOCKSIZE) ((c4fsW fileD).getD [])
           (gcmEncryptBytes keyW (ivW.take AES_BLOCKSIZE) [7])).length = MAC_SIZE
      ∧ splitCipherMac
          (gcmEncryptBytes keyW (ivW.take AES_BLOCKSIZE) [7]
             ++ gcmTag keyW (ivW.take AES_BLOCKSIZE) ((c4fsW fileD).getD [])
                  (gcmEncryptBytes keyW (ivW.take AES_BLOCKSIZE) [7]))
        = (gcmEncryptBytes keyW (ivW.take AES_BLOCKSIZE) [7],
           gcmTag keyW (ivW.take AES_BLOCKSIZE) ((c4fsW fileD).getD [])
             (gcmEncryptBytes keyW (ivW.take AES_BLOCKSIZE) [7]))) :=
  ⟨by decide, c4_output_layout c4fsW fileP fileD keyW ivW [7] (by decide)⟩

/-- C5 (code bug): digest-verification mismatch terminates the process.  For
an input file `[1]` and a 64-zero-byte expected-digest file, both
`verifyHashFromFile` and `verifyHashFromFiles` end in `exit(1)` — neither
returns the boolean `false` (that `return false` sits after `exit(1)` and is
unreachable). -/
theorem c5_mismatch_terminates_process :
    verifyHashFromFile c5fs fileA fileH = Outcome.exited 1
    ∧ verifyHashFromFiles c5fs [fileA] fileH = Outcome.exited 1
    ∧ verifyHashFromFile c5fs fileA fileH ≠ Outcome.ok false
    ∧ verifyHashFromFiles c5fs [fileA] fileH ≠ Outcome.ok false := by
  decide

/-- C6 (code bug): a freshly created valid (file, digest) pair fails
verification.  `createHashFromFile` writes the digest of file `[1]`, yet
`verifyHashFromFile` on that very pair does not return `true`: it never
reads the input file — it runs the verifier over the digest file alone,
comparing the digest of that file's first `length - 64` bytes with its last
64 bytes — and the mismatch ends in `exit(1)`. -/
theorem c6_valid_pair_verification_fails :
    createHashFromFile c6fs fileA = Outcome.ok (sha512Digest [1])
    ∧ verifyHashFromFile c6fs fileA fileH ≠ Outcome.ok true
    ∧ verifyHashFromFile c6fs fileA fileH = Outcome.exited 1 := by
  decide

/-- Helper for C7: decryption of a well-formed encryption output (empty AAD)
succeeds and recovers the plaintext when the AAD file is missing, returning
the missing-AAD warning. -/
theorem decryptFile_ok_of_missing_aad (junk : Nat → Bytes) (fs : FS)
    (cF aF : String) (k iv p : Bytes) (hpne : p ≠ []) (hda : fs aF = none)
    (hc : fs cF = some (gcmEncryptBytes k (iv.take AES_BLOCKSIZE) p
            ++ gcmTag k (iv.take AES_BLOCKSIZE) []
                 (gcmEncryptBytes k (iv.take AES_BLOCKSIZE) p))) :
    decryptFile junk fs cF aF k iv = Outcome.ok (p, true) := by
  have hlen : (gcmEncryptBytes k (iv.take AES_BLOCKSIZE) p
      ++ gcmTag k (iv.take AES_BLOCKSIZE) []
           (gcmEncryptBytes k (iv.take AES_BLOCKSIZE) p)).length
      = p.length + MAC_SIZE := by
    rw [List.length_append, length_gcmEncryptBytes, length_gcmTag]
  have hpos : 0 < p.length := List.length_pos.mpr hpne
  simp only [decryptFile, hc]
  rw [if_neg (by rw [hlen]; unfold MAC_SIZE; push_cast; omega)]
  rw [splitCipherMac_append _ _ (length_gcmTag k (iv.take AES_BLOCKSIZE) []
      (gcmEncryptBytes k (iv.take AES_BLOCKSIZE) p))]
  simp only [hda, Option.isNone_none]
  rw [if_pos trivial, gcm_roundtrip]

/-- C7 (confirmed): a missing associated-data file is recoverable and
symmetric.  When the AAD file is absent on the encryption side, encryption
proceeds with empty AAD and reports the warning (the `true` flag); when the
AAD file is absent on the decryption side as well, decryption of that output
also proceeds with the warning, passes verification, and recovers the
plaintext — neither direction hard-fails. -/
theorem c7_missing_aad_recoverable (fse fsd : FS) (pF aF cF aF2 : String)
    (junk : Nat → Bytes) (k iv p : Bytes)
    (hp : fse pF = some p) (hpne : p ≠ [])
    (hea : fse aF = none) (hda : fsd aF2 = none)
    (hc : fsd cF = some (gcmEncryptBytes k (iv.take AES_BLOCKSIZE) p
            ++ gcmTag k (iv.take AES_BLOCKSIZE) []
                 (gcmEncryptBytes k (iv.take AES_BLOCKSIZE) p))) :
    encryptFile fse pF aF k iv
      = Outcome.ok (gcmEncryptBytes k (iv.take AES_BLOCKSIZE) p
          ++ gcmTag k (iv.take AES_BLOCKSIZE) []
               (gcmEncryptBytes k (iv.take AES_BLOCKSIZE) p), true)
    ∧ decryptFile junk fsd cF aF2 k iv = Outcome.ok (p, true) := by
  constructor
  · simp only [encryptFile, hp, hea, Option.getD_none, Option.isNone_none]
  · exact decryptFile_ok_of_missing_aad junk fsd cF aF2 k iv p hpne hda hc

/-- Witness for C7 at a concrete input: plaintext `[1, 2, 3]`, missing AAD
file on both sides, concrete key and nonce, zeroed indeterminate bytes. -/
theorem c7_missing_aad_recoverable_witness :
    c7fsEnc fileP = some [1, 2, 3]
    ∧ ([1, 2, 3] : Bytes) ≠ []
    ∧ c7fsEnc fileX = none
    ∧ c7fsDec fileX = none
    ∧ (encryptFile c7fsEnc fileP fileX keyW ivW
        = Outcome.ok (gcmEncryptBytes keyW (ivW.take AES_BLOCKSIZE) [1, 2, 3]
            ++ gcmTag keyW (ivW.take AES_BLOCKSIZE) []
                 (gcmEncryptBytes keyW (ivW.take AES_BLOCKSIZE) [1, 2, 3]), true)
      ∧ decryptFile junk0 c7fsDec fileC fileX keyW ivW
          = Outcome.ok ([1, 2, 3], true)) :=
  ⟨by decide, by decide, by decide, by decide,
    c7_missing_aad_recoverable c7fsEnc c7fsDec fileP fileX fileC fileX junk0
      keyW ivW [1, 2, 3] (by decide) (by decide) (by decide) (by decide) (by decide)⟩

/-- C8 counterexample: a 20-byte nonce, whose length differs from the 16-byte
block size, is not rejected: encryption completes normally and decryption of
the result with the same 20-byte nonce completes normally and recovers the
plaintext — there is no `InvalidNonceLength` rejection anywhere. -/
theorem c8_wrong_length_nonce_accepted :
    nonce20.length ≠ AES_BLOCKSIZE
    ∧ encryptFile c8fsEnc fileP fileX keyW nonce20 = Outcome.ok (c8out, true)
    ∧ decryptFile junk0 c8fsDec fileC fileX keyW nonce20 = Outcome.ok ([7], true) := by
  decide

/-- C8 (amended): `encryptFile` and `decryptFile` perform no nonce-length
validation at all.  Both always read exactly `AES::BLOCKSIZE` (16) bytes
from the nonce pointer, so their behavior depends only on the first 16
nonce bytes, and encryption proceeds (no nonce rejection) whenever the
primary input file is present. -/
theorem c8_nonce_unchecked_first_16 (fs : FS) (junk : Nat → Bytes)
    (inF aadF : String) (k iv p : Bytes)
    (h16 : AES_BLOCKSIZE ≤ iv.length) (hp : fs inF = some p) :
    encryptFile fs inF aadF k iv = encryptFile fs inF aadF k (iv.take AES_BLOCKSIZE)
    ∧ decryptFile junk fs inF aadF k iv
        = decryptFile junk fs inF aadF k (iv.take AES_BLOCKSIZE)
    ∧ (encryptFile fs inF aadF k iv).isOk = true := by
  refine ⟨?_, ?_, ?_⟩
  · unfold encryptFile
    simp only [List.take_take, Nat.min_self]
  · unfold decryptFile
    simp only [List.take_take, Nat.min_self]
  · unfold encryptFile
    rw [hp]
    rfl

/-- Witness for C8's amended theorem at a concrete input: the 20-byte nonce
and a present plaintext file. -/
theorem c8_nonce_unchecked_first_16_witness :
    AES_BLOCKSIZE ≤ nonce20.length
    ∧ c8fsEnc fileP = some [7]
    ∧ (encryptFile c8fsEnc fileP fileX keyW nonce20
        = encryptFile c8fsEnc fileP fileX keyW (nonce20.take AES_BLOCKSIZE)
      ∧ decryptFile junk0 c8fsEnc fileP fileX keyW nonce20
          = decryptFile junk0 c8fsEnc fileP fileX keyW (nonce20.take AES_BLOCKSIZE)
      ∧ (encryptFile c8fsEnc fileP fileX keyW nonce20).isOk = true) :=
  ⟨by decide, by decide,
    c8_nonce_unchecked_first_16 c8fsEnc junk0 fileP fileX keyW nonce20 [7]
      (by decide) (by decide)⟩

/-- C9 (confirmed): for a non-empty shared secret the derived key is exactly
one SHA-256 digest pass over the raw secret bytes (so it is deterministic)
and is always 32 bytes (256 bits); for the empty secret the function throws
instead of producing a key. -/
theorem c9_derive_key (s : Bytes) (h : s ≠ []) :
    generateSymmetricKeyFromSharedSecret s = Outcome.ok (sha256Digest s)
    ∧ (sha256Digest s).length = SHA256_DIGESTSIZE
    ∧ ∀ k, generateSymmetricKeyFromSharedSecret [] ≠ Outcome.ok k := by
  refine ⟨?_, by simp [sha256Digest], ?_⟩
  · unfold generateSymmetricKeyFromSharedSecret
    rw [if_neg (by simpa using h)]
  · intro k hk
    simp [generateSymmetricKeyFromSharedSecret] at hk

/-- Witness for C9 at the concrete non-empty secret `[1]`. -/
theorem c9_derive_key_witness :
    ([1] : Bytes) ≠ []
    ∧ (generateSymmetricKeyFromSharedSecret [1] = Outcome.ok (sha256Digest [1])
      ∧ (sha256Digest [1]).length = SHA256_DIGESTSIZE
      ∧ ∀ k, generateSymmetricKeyFromSharedSecret [] ≠ Outcome.ok k) :=
  ⟨by decide, c9_derive_key [1] (by decide)⟩

/-- C10 (confirmed): `verifyHashFromFile` only ever reads the expected-hash
file, so its outcome is unchanged by any change to the rest of the file
system — in particular to the file being verified — and whenever it returns
a boolean at all, that boolean is `true`. -/
theorem c10_verify_reads_only_hash_file (fs1 fs2 : FS) (inF1 inF2 hF : String)
    (hh : fs1 hF = fs2 hF) :
    verifyHashFromFile fs1 inF1 hF = verifyHashFromFile fs2 inF2 hF
    ∧ ∀ b, verifyHashFromFile fs1 inF1 hF = Outcome.ok b → b = true := by
  constructor
  · unfold verifyHashFromFile
    rw [hh]
  · intro b hb
    unfold verifyHashFromFile at hb
    cases hfs : fs1 hF with
    | none =>
        simp only [hfs] at hb
        exact Outcome.noConfusion hb
    | some content =>
        simp only [hfs] at hb
        by_cases hcond : SHA512_DIGESTSIZE ≤ content.length ∧
            sha512Digest (content.take (content.length - SHA512_DIGESTSIZE))
              = content.drop (content.length - SHA512_DIGESTSIZE)
        · rw [if_pos hcond] at hb
          injection hb with h2
          exact h2.symm
        · rw [if_neg hcond] at hb
          exact Outcome.noConfusion hb

/-- Witness for C10 at concrete inputs: two file systems agreeing on the
hash file but holding different contents for the verified file. -/
theorem c10_verify_reads_only_hash_file_witness :
    c10fsA fileH = c10fsB fileH
    ∧ (verifyHashFromFile c10fsA fileA fileH = verifyHashFromFile c10fsB fileA fileH
      ∧ ∀ b, verifyHashFromFile c10fsA fileA fileH = Outcome.ok b → b = true) :=
  ⟨by decide,
    c10_verify_reads_only_hash_file c10fsA c10fsB fileA fileA fileH (by decide)⟩
